import Mathlib

/-!
Verification development for `pc_temp_monitor.py`, a CPU temperature and load
monitor that streams readings to an external display device over a serial
link.  The Python source is shallowly embedded: file contents and tool output
are lists of characters, temperatures and loads are rationals, the probe
functions return `Option ℚ` (`none` models Python `None`), and the streaming
loop is a step function on an explicit state record.
-/

namespace PcTempMonitor

/-- Characters treated as whitespace by Python `str.strip` and `\s`
(restricted to the ASCII range actually present in sensor files). -/
def isPySpace (c : Char) : Bool :=
  c = ' ' || c = '\t' || c = '\n' || c = '\r' || c = '\x0b' || c = '\x0c'

/-- Python `str.strip()`: drop whitespace from both ends. -/
def stripPy (l : List Char) : List Char :=
  ((l.dropWhile isPySpace).reverse.dropWhile isPySpace).reverse

/-- Python `s.replace('.', '')`: remove every dot. -/
def removeDots (l : List Char) : List Char :=
  l.filter (fun c => c != '.')

/-- Python `str.isdigit()` (ASCII fragment): nonempty and every character a
decimal digit. -/
def isdigitPy (l : List Char) : Bool :=
  !l.isEmpty && l.all Char.isDigit

/-- Numeric value of a list of decimal digit characters, most significant
first (`digitsVal ['4','5'] = 45`). -/
def digitsVal (l : List Char) : ℕ :=
  l.foldl (fun n c => 10 * n + (c.toNat - '0'.toNat)) 0

/-- Python `float(s)` on a string made of digits and dots: defined (as the
usual decimal value) when there is at most one dot, otherwise `ValueError`,
modelled as `none`. -/
def pyFloatOfDigitsDots (l : List Char) : Option ℚ :=
  if 2 ≤ l.count '.' then none
  else
    let a := l.takeWhile (fun c => c != '.')
    let b := (l.dropWhile (fun c => c != '.')).drop 1
    some ((digitsVal a : ℚ) + (digitsVal b : ℚ) / 10 ^ b.length)

/-- Reading one temperature file, as both the AMD fixed-path probe and the
hwmon probe do: strip the content, reject empty or non-numeric strings
(`not temp_str or not temp_str.replace('.','').isdigit()`), then
`float(temp_str) / 1000.0`; a `ValueError` from `float` is `none`. -/
def parseTempContent (content : List Char) : Option ℚ :=
  let t := stripPy content
  if t.isEmpty then none
  else if !isdigitPy (removeDots t) then none
  else (pyFloatOfDigitsDots t).map (fun v => v / 1000)

/-- `get_cpu_temp_from_amd_specific`: walk the fixed candidate paths in
order (`none` = the path does not exist); return the first parsed value
lying in `[0, 120]`, else `None`. -/
def get_cpu_temp_from_amd_specific : List (Option (List Char)) → Option ℚ
  | [] => none
  | none :: rest => get_cpu_temp_from_amd_specific rest
  | some content :: rest =>
    match parseTempContent content with
    | none => get_cpu_temp_from_amd_specific rest
    | some t =>
      if 0 ≤ t ∧ t ≤ 120 then some t
      else get_cpu_temp_from_amd_specific rest

/-! ## Generic hwmon enumeration probe (`get_cpu_temp_from_sysfs`) -/

/-- One `/sys/class/hwmon/hwmonN` entry: the content of its `name` file when
that file exists, and the contents of its `temp*_input` leaves in glob
order.  (Label files only influence the diagnostic print text, not which
line is printed, so they are not modelled.) -/
structure HwmonDevice where
  nameFile : Option (List Char)
  leaves : List (List Char)
deriving DecidableEq

/-- Process the `temp*_input` leaves of one device.  The Python loop appends
each plausible reading and then prints a line interpolating `device_name`.
`device_name` is only ever assigned when some device so far had a `name`
file; if none had, the print raises `NameError`, which is not caught by the
inner `except (ValueError, OSError, IOError)` nor by the per-device
`except (OSError, IOError)` and aborts the whole probe (`none`). -/
def collectLeaves (haveName : Bool) : List (List Char) → Option (List ℚ)
  | [] => some []
  | content :: rest =>
    match parseTempContent content with
    | none => collectLeaves haveName rest
    | some t =>
      if 0 ≤ t ∧ t ≤ 120 then
        if haveName then
          match collectLeaves haveName rest with
          | none => none
          | some l => some (t :: l)
        else none
      else collectLeaves haveName rest

/-- Walk the hwmon devices in order, threading the last value assigned to
the function-local `device_name` variable (it persists across loop
iterations), collecting every plausible reading. -/
def collectDevices (deviceName : Option (List Char)) :
    List HwmonDevice → Option (List ℚ)
  | [] => some []
  | d :: rest =>
    let dn := match d.nameFile with
      | some n => some n
      | none => deviceName
    match collectLeaves dn.isSome d.leaves with
    | none => none
    | some ts =>
      match collectDevices dn rest with
      | none => none
      | some l => some (ts ++ l)

/-- Python `max` on a list, `none` when empty. -/
def maxListQ : List ℚ → Option ℚ
  | [] => none
  | t :: rest => some (rest.foldl max t)

/-- `get_cpu_temp_from_sysfs`: enumerate hwmon devices, collect all
plausible readings, and return their maximum; `None` when there are no
devices, no plausible readings, or an uncaught exception escaped to the
outermost `except Exception` handler. -/
def get_cpu_temp_from_sysfs (devs : List HwmonDevice) : Option ℚ :=
  if devs.isEmpty then none
  else
    match collectDevices none devs with
    | none => none
    | some ts => maxListQ ts

/-! ## External sensor-daemon probe (`get_cpu_temp_from_lm_sensors`) -/

/-- Python `str.lower` on the ASCII range (the only letters occurring in
`sensors` output). -/
def pyToLower (c : Char) : Char :=
  if 'A' ≤ c ∧ c ≤ 'Z' then Char.ofNat (c.toNat + 32) else c

/-- Does `targetText` start with `pat`? -/
def startsWithL : List Char → List Char → Bool
  | [], _ => true
  | _ :: _, [] => false
  | a :: as, b :: bs => a = b && startsWithL as bs

/-- Python `needle in hay` substring test. -/
def containsSub (needle : List Char) : List Char → Bool
  | [] => needle.isEmpty
  | c :: rest => startsWithL needle (c :: rest) || containsSub needle rest

/-- Python `"\n"`-splitting, `str.split('\n')`. -/
def splitNL : List Char → List (List Char)
  | [] => [[]]
  | c :: rest =>
    if c = '\n' then [] :: splitNL rest
    else
      match splitNL rest with
      | [] => [[c]]
      | l :: ls => (c :: l) :: ls

/-- Match `[+-]?\d+\.?\d*` at the start of `l`; on success return the
matched group and the remaining characters.  Greedy matching is faithful
here: any backtracked variant resumes at a digit or a dot, where the tail
`\s*°C` cannot match, so the greedy parse is the only possible one. -/
def matchNumAt (l : List Char) : Option (List Char × List Char) :=
  let (sign, l1) : List Char × List Char :=
    match l with
    | c :: rest => if c = '+' ∨ c = '-' then ([c], rest) else ([], l)
    | [] => ([], [])
  let d1 := l1.takeWhile Char.isDigit
  let r1 := l1.dropWhile Char.isDigit
  if d1.isEmpty then none
  else
    let (dot, r2) : List Char × List Char :=
      match r1 with
      | '.' :: rest => (['.'], rest)
      | _ => ([], r1)
    let d2 := r2.takeWhile Char.isDigit
    let r3 := r2.dropWhile Char.isDigit
    some (sign ++ d1 ++ dot ++ d2, r3)

/-- The tail `\s*°C` of the pattern. -/
def matchTailDeg (l : List Char) : Bool :=
  startsWithL ['°', 'C'] (l.dropWhile isPySpace)

/-- `re.search(r'([+-]?\d+\.?\d*)\s*°C', line)`: leftmost match, returning
group 1. -/
def regexSearchTemp : List Char → Option (List Char)
  | [] => none
  | c :: rest =>
    match matchNumAt (c :: rest) with
    | some (g, r) => if matchTailDeg r then some g else regexSearchTemp rest
    | none => regexSearchTemp rest

/-- `float` on a matched group `[+-]?\d+\.?\d*` (always a valid float). -/
def floatOfGroup (g : List Char) : ℚ :=
  let mag : List Char → ℚ := fun l =>
    let a := l.takeWhile Char.isDigit
    let b := (l.dropWhile Char.isDigit).drop 1
    (digitsVal a : ℚ) + (digitsVal b : ℚ) / 10 ^ b.length
  match g with
  | '-' :: rest => -(mag rest)
  | '+' :: rest => mag rest
  | _ => mag g

/-- One line of `sensors` output: kept when its lowercased text mentions a
CPU-ish label and — as literally written in the source — the RAW line
contains the lowercase marker `'°c'` (`'°c' in line`, not `line_lower`);
then the first regex match is parsed and accepted if within `[0, 120]`. -/
def lineTemp (line : List Char) : Option ℚ :=
  let ll := line.map pyToLower
  if (containsSub ('c' :: 'o' :: 'r' :: 'e' :: []) ll
      || containsSub ('c' :: 'p' :: 'u' :: []) ll
      || containsSub ('p' :: 'a' :: 'c' :: 'k' :: 'a' :: 'g' :: 'e' :: []) ll
      || containsSub ('t' :: 'c' :: 'c' :: 'd' :: []) ll
      || containsSub ('t' :: 'd' :: 'i' :: 'e' :: []) ll)
      && containsSub ('°' :: 'c' :: []) line then
    match regexSearchTemp line with
    | some g =>
      let t := floatOfGroup g
      if 0 ≤ t ∧ t ≤ 120 then some t else none
    | none => none
  else none

/-- `get_cpu_temp_from_lm_sensors`: `none` models `sensors` being absent,
returning a nonzero exit code, timing out, or raising; otherwise scan the
output lines and return the arithmetic mean of the accepted values, `None`
when no line was accepted. -/
def get_cpu_temp_from_lm_sensors (sensorsOut : Option (List Char)) : Option ℚ :=
  match sensorsOut with
  | none => none
  | some out =>
    let temps := (splitNL out).filterMap lineTemp
    if temps.isEmpty then none
    else some (temps.sum / temps.length)

/-! ## Load sampler (`get_cpu_load`, `get_cpu_load_from_proc`) -/

/-- `get_cpu_load_from_proc`: `fields` are the numeric columns of the
`cpu ` line of `/proc/stat` (`none` = no such line or a read failure;
fewer than four columns = `IndexError`, swallowed by the bare `except`).
`total_time` is the sum of all columns, `idle_time` the fourth; when
`total_time > 0` return `100 - idle_fraction*100`, else the default 5.0. -/
def get_cpu_load_from_proc (fields : Option (List ℕ)) : ℚ :=
  match fields with
  | none => 5
  | some l =>
    match l.get? 3 with
    | none => 5
    | some idle =>
      let total := l.sum
      if 0 < total then 100 - ((idle : ℚ) / (total : ℚ)) * 100
      else 5

/-- `get_cpu_load`: `measured` is the second `psutil.cpu_percent` result
(`none` = an exception, answered with 1.0).  A zero measurement falls back
to `/proc/stat`; the result is clamped below by `max(0.1, ...)`. -/
def get_cpu_load (measured : Option ℚ) (fields : Option (List ℕ)) : ℚ :=
  match measured with
  | none => 1
  | some v =>
    let load := if v = 0 then get_cpu_load_from_proc fields else v
    max (1 / 10) load

/-! ## The probe chain (`get_cpu_temperature_linux`) -/

/-- Python `round(x, 1)` over the rationals: one decimal place,
halves up. -/
def round1 (q : ℚ) : ℚ :=
  ((⌊10 * q + 1 / 2⌋ : ℤ) : ℚ) / 10

/-- Which probe produced the temperature (diagnostic provenance). -/
inductive SourceTag
  | amdSpecific
  | hwmonSysfs
  | lmSensors
  | safeDefault
deriving DecidableEq

/-- The external state all probes read: fixed-path file contents, hwmon
devices, `sensors` output, and the load sampler's inputs. -/
structure Env where
  amdPaths : List (Option (List Char))
  hwmonDevs : List HwmonDevice
  sensorsOut : Option (List Char)
  psutilLoad : Option ℚ
  procStat : Option (List ℕ)
deriving DecidableEq

/-- What `get_cpu_temperature_linux` returns, with the provenance tag and
the warning log event made explicit observations. -/
structure ChainResult where
  temp : ℚ
  tag : SourceTag
  load : ℚ
  warned : Bool
deriving DecidableEq

/-- `get_cpu_temperature_linux`: sample the load, then try the AMD fixed
paths, then hwmon enumeration, then `sensors`; fall back to the safe
default 40.0 with a warning log.  Both results are rounded to one
decimal. -/
def get_cpu_temperature_linux (env : Env) : ChainResult :=
  let cpu_load := get_cpu_load env.psutilLoad env.procStat
  match get_cpu_temp_from_amd_specific env.amdPaths with
  | some t => ⟨round1 t, SourceTag.amdSpecific, round1 cpu_load, false⟩
  | none =>
    match get_cpu_temp_from_sysfs env.hwmonDevs with
    | some t => ⟨round1 t, SourceTag.hwmonSysfs, round1 cpu_load, false⟩
    | none =>
      match get_cpu_temp_from_lm_sensors env.sensorsOut with
      | some t => ⟨round1 t, SourceTag.lmSensors, round1 cpu_load, false⟩
      | none => ⟨round1 40, SourceTag.safeDefault, round1 cpu_load, true⟩

/-! ## The monitor session (`TemperatureMonitor`) -/

/-- The serial connection object; only its open flag is observable to the
monitor logic. -/
structure SerialConn where
  is_open : Bool
deriving DecidableEq

/-- The `TemperatureMonitor` instance state (`__init__` plus the mutable
fields `run` and `stop` touch). -/
structure Monitor where
  serial_conn : Option SerialConn
  running : Bool
  error_count : ℕ
  max_errors : ℕ
  daemon_mode : Bool
deriving DecidableEq

/-- `TemperatureMonitor.__init__`: no connection yet, not running, error
count 0, budget 10. -/
def monitorInit (daemon : Bool) : Monitor :=
  ⟨none, false, 0, 10, daemon⟩

/-- Python `data_str.endswith('\n')`. -/
def endsNL (s : String) : Bool :=
  match s.data.getLast? with
  | some c => c = '\n'
  | none => false

/-- `TemperatureMonitor.send_data`: when a connection exists and is open,
append a newline if absent and write; `writeOk` stands for the write call
completing without an I/O exception (an exception is caught and answered
with `False`).  Returns the success flag and the payload passed to
`write`. -/
def send_data (m : Monitor) (writeOk : Bool) (s : String) :
    Bool × Option String :=
  match m.serial_conn with
  | some c =>
    if c.is_open then
      let out := if endsNL s then s else s ++ "\n"
      (writeOk, some out)
    else (false, none)
  | none => (false, none)

/-- `TemperatureMonitor.stop`: clear `running`, close the connection only
when one exists and is open.  The returned flag records whether `close()`
was invoked. -/
def stopM (m : Monitor) : Monitor × Bool :=
  let m1 := { m with running := false }
  match m1.serial_conn with
  | some c =>
    if c.is_open then ({ m1 with serial_conn := some ⟨false⟩ }, true)
    else (m1, false)
  | none => (m1, false)

/-- The wire line built each tick:
`f"TEMP:{cpu_temp:.1f}|LOAD:{cpu_load:.1f}"`.  `fmt1` renders `{:.1f}`. -/
def natFmt1 (n : ℕ) : String :=
  toString (n / 10) ++ "." ++ toString (n % 10)

/-- Python `{:.1f}` formatting over the rationals. -/
def fmt1 (q : ℚ) : String :=
  let n : ℤ := ⌊10 * q + 1 / 2⌋
  if n < 0 then "-" ++ natFmt1 n.natAbs else natFmt1 n.toNat

/-- The formatted data line of one tick (before `send_data` appends the
line terminator). -/
def wireData (t l : ℚ) : String :=
  "TEMP:" ++ fmt1 t ++ "|LOAD:" ++ fmt1 l

/-! ## The streaming loop (`TemperatureMonitor.run`) -/

/-- What one iteration of the `while` loop encounters: a normal tick with
the sampled reading and the fate of the serial write, a
`KeyboardInterrupt`, or any other exception (the generic `except` arm). -/
inductive TickEvent
  | tick (temp load : ℚ) (writeOk : Bool)
  | keyint
  | exn
deriving DecidableEq

/-- The loop's state: the monitor object, the local `success_counter`, a
ghost count of `send_data` attempts, and whether the loop has exited. -/
structure LoopState where
  mon : Monitor
  success_counter : ℕ
  sends : ℕ
  exited : Bool
deriving DecidableEq

/-- Entering `run` after a successful `connect`: `self.running = True`,
counters zero. -/
def loopInit (m : Monitor) : LoopState :=
  ⟨{ m with running := true }, 0, 0, false⟩

/-- One iteration of the `while self.running` loop.  A successful send
resets `error_count` and bumps `success_counter`; a failed send or a
generic exception increments `error_count` and `break`s once it reaches
`max_errors`; `KeyboardInterrupt` clears `running` and `break`s. -/
def loopStep (s : LoopState) (e : TickEvent) : LoopState :=
  if s.exited then s
  else if s.mon.running = false then { s with exited := true }
  else
    match e with
    | .tick t l w =>
      let res := send_data s.mon w (wireData t l)
      let s1 := { s with sends := s.sends + 1 }
      if res.1 then
        { s1 with mon := { s1.mon with error_count := 0 },
                  success_counter := s1.success_counter + 1 }
      else
        let ec := s1.mon.error_count + 1
        if s1.mon.max_errors ≤ ec then
          { s1 with mon := { s1.mon with error_count := ec }, exited := true }
        else { s1 with mon := { s1.mon with error_count := ec } }
    | .keyint =>
      { s with mon := { s.mon with running := false }, exited := true }
    | .exn =>
      let ec := s.mon.error_count + 1
      if s.mon.max_errors ≤ ec then
        { s with mon := { s.mon with error_count := ec }, exited := true }
      else { s with mon := { s.mon with error_count := ec } }

/-- Run the loop over a sequence of iteration events. -/
def runLoop (s : LoopState) (es : List TickEvent) : LoopState :=
  es.foldl loopStep s

/-! ## Plausibility-range lemmas for the three probes -/

theorem amd_range : ∀ (ps : List (Option (List Char))) (t : ℚ),
    get_cpu_temp_from_amd_specific ps = some t → 0 ≤ t ∧ t ≤ 120 := by
  intro ps
  induction ps with
  | nil => intro t h; simp [get_cpu_temp_from_amd_specific] at h
  | cons p rest ih =>
    intro t h
    match p with
    | none =>
      exact ih t (by simpa [get_cpu_temp_from_amd_specific] using h)
    | some content =>
      simp only [get_cpu_temp_from_amd_specific] at h
      split at h
      · exact ih t h
      · split at h
        next hc =>
          injection h with h
          exact h ▸ hc
        next => exact ih t h

theorem collectLeaves_range (b : Bool) : ∀ (ls : List (List Char)) (acc : List ℚ),
    collectLeaves b ls = some acc → ∀ t ∈ acc, 0 ≤ t ∧ t ≤ 120 := by
  intro ls
  induction ls with
  | nil =>
    intro acc h t ht
    simp only [collectLeaves, Option.some.injEq] at h
    subst h
    simp at ht
  | cons c rest ih =>
    intro acc h t ht
    simp only [collectLeaves] at h
    split at h
    · exact ih acc h t ht
    · split at h
      next hc =>
        split at h
        · split at h
          · exact absurd h (by simp)
          next l hl =>
            injection h with h
            rw [← h] at ht
            rcases List.mem_cons.mp ht with rfl | ht1
            · exact hc
            · exact ih l hl t ht1
        · exact absurd h (by simp)
      next => exact ih acc h t ht

theorem collectDevices_range : ∀ (devs : List HwmonDevice)
    (dn : Option (List Char)) (acc : List ℚ),
    collectDevices dn devs = some acc → ∀ t ∈ acc, 0 ≤ t ∧ t ≤ 120 := by
  intro devs
  induction devs with
  | nil =>
    intro dn acc h t ht
    simp only [collectDevices, Option.some.injEq] at h
    subst h
    simp at ht
  | cons d rest ih =>
    intro dn acc h t ht
    simp only [collectDevices] at h
    split at h
    · exact absurd h (by simp)
    next ts hts =>
      split at h
      · exact absurd h (by simp)
      next l hl =>
        injection h with h
        rw [← h] at ht
        rcases List.mem_append.mp ht with ht1 | ht1
        · exact collectLeaves_range _ _ _ hts t ht1
        · exact ih _ l hl t ht1

theorem foldl_max_range (a b : ℚ) : ∀ (l : List ℚ) (t : ℚ),
    a ≤ t → t ≤ b → (∀ x ∈ l, a ≤ x ∧ x ≤ b) →
    a ≤ l.foldl max t ∧ l.foldl max t ≤ b := by
  intro l
  induction l with
  | nil => intro t h0 h1 _; exact ⟨h0, h1⟩
  | cons x rest ih =>
    intro t h0 h1 hall
    simp only [List.foldl_cons]
    have hx := hall x (List.mem_cons_self x rest)
    exact ih (max t x) (le_trans h0 (le_max_left t x))
      (max_le h1 hx.2) (fun y hy => hall y (List.mem_cons_of_mem x hy))

theorem sysfs_range (devs : List HwmonDevice) (t : ℚ)
    (h : get_cpu_temp_from_sysfs devs = some t) : 0 ≤ t ∧ t ≤ 120 := by
  simp only [get_cpu_temp_from_sysfs] at h
  by_cases he : devs.isEmpty
  · rw [if_pos he] at h; exact absurd h (by simp)
  · rw [if_neg he] at h
    cases hc : collectDevices none devs with
    | none => rw [hc] at h; exact absurd h (by simp)
    | some ts =>
      rw [hc] at h
      have hall := collectDevices_range devs none ts hc
      cases ts with
      | nil => simp [maxListQ] at h
      | cons t0 rest =>
        simp only [maxListQ] at h
        injection h with h
        have ht0 := hall t0 (List.mem_cons_self t0 rest)
        exact h ▸ foldl_max_range 0 120 rest t0 ht0.1 ht0.2
          (fun y hy => hall y (List.mem_cons_of_mem t0 hy))

theorem lineTemp_range (line : List Char) (t : ℚ)
    (h : lineTemp line = some t) : 0 ≤ t ∧ t ≤ 120 := by
  simp only [lineTemp] at h
  split at h
  · cases hg : regexSearchTemp line with
    | none => rw [hg] at h; exact absurd h (by simp)
    | some g =>
      rw [hg] at h
      simp only at h
      by_cases hc : 0 ≤ floatOfGroup g ∧ floatOfGroup g ≤ 120
      · rw [if_pos hc] at h
        injection h with h
        exact h ▸ hc
      · rw [if_neg hc] at h
        exact absurd h (by simp)
  · exact absurd h (by simp)

theorem sum_range : ∀ (l : List ℚ), (∀ x ∈ l, 0 ≤ x ∧ x ≤ 120) →
    0 ≤ l.sum ∧ l.sum ≤ 120 * l.length := by
  intro l
  induction l with
  | nil => intro _; simp
  | cons x rest ih =>
    intro hall
    have hx := hall x (List.mem_cons_self x rest)
    have hr := ih (fun y hy => hall y (List.mem_cons_of_mem x hy))
    simp only [List.sum_cons, List.length_cons]
    constructor
    · linarith [hx.1, hr.1]
    · push_cast
      linarith [hx.2, hr.2]

theorem lm_range (out : Option (List Char)) (t : ℚ)
    (h : get_cpu_temp_from_lm_sensors out = some t) : 0 ≤ t ∧ t ≤ 120 := by
  cases out with
  | none => exact absurd h (by simp [get_cpu_temp_from_lm_sensors])
  | some text =>
    simp only [get_cpu_temp_from_lm_sensors] at h
    set temps := (splitNL text).filterMap lineTemp with htemps
    by_cases he : temps.isEmpty
    · rw [if_pos he] at h; exact absurd h (by simp)
    · rw [if_neg he] at h
      injection h with h
      have hall : ∀ x ∈ temps, 0 ≤ x ∧ x ≤ 120 := by
        intro x hx
        obtain ⟨line, _, hline⟩ := List.mem_filterMap.mp hx
        exact lineTemp_range line x hline
      have hs := sum_range temps hall
      have hlen : 0 < (temps.length : ℚ) := by
        have : temps ≠ [] := by simpa [List.isEmpty_iff] using he
        have : 0 < temps.length := List.length_pos.mpr this
        exact_mod_cast this
      constructor
      · exact h ▸ div_nonneg hs.1 (le_of_lt hlen)
      · rw [← h]
        rw [div_le_iff₀ hlen]
        calc temps.sum ≤ 120 * temps.length := hs.2
        _ = 120 * temps.length := rfl

theorem round1_range (q : ℚ) (h0 : 0 ≤ q) (h1 : q ≤ 120) :
    0 ≤ round1 q ∧ round1 q ≤ 120 := by
  have hl : (0 : ℤ) ≤ ⌊10 * q + 1 / 2⌋ := by
    apply Int.le_floor.mpr
    push_cast
    linarith
  have hu : ⌊10 * q + 1 / 2⌋ ≤ 1200 := by
    have : (10 : ℚ) * q + 1 / 2 ≤ 1200 + 1 / 2 := by linarith
    calc ⌊10 * q + 1 / 2⌋ ≤ ⌊(1200 : ℚ) + 1 / 2⌋ := Int.floor_le_floor this
    _ = 1200 := by
        rw [Int.floor_eq_iff]
        norm_num
  unfold round1
  constructor
  · positivity
  · rw [div_le_iff₀ (by norm_num : (0:ℚ) < 10)]
    calc ((⌊10 * q + 1 / 2⌋ : ℤ) : ℚ) ≤ (1200 : ℤ) := by exact_mod_cast hu
    _ = 120 * 10 := by norm_num

/-- Is the monitor's connection absent or closed? -/
def connClosed (m : Monitor) : Bool :=
  match m.serial_conn with
  | none => true
  | some c => !c.is_open

/-- A monitor as it stands right after a successful `connect`: an open
serial connection, error budget 10. -/
def connectedStart : Monitor :=
  { monitorInit true with serial_conn := some ⟨true⟩ }

/-- Ten consecutive ticks whose serial write fails. -/
def failTen : List TickEvent :=
  List.replicate 10 (TickEvent.tick 50 10 false)

/-- Once the loop has exited, no further iteration changes anything. -/
theorem runLoop_exited (es : List TickEvent) : ∀ s : LoopState,
    s.exited = true → runLoop s es = s := by
  induction es with
  | nil => intro s _; rfl
  | cons e rest ih =>
    intro s h
    have hstep : loopStep s e = s := by simp [loopStep, h]
    simp only [runLoop, List.foldl_cons]
    rw [hstep]
    exact ih s h

/-- Claim C1: the probe chain always returns a temperature in `[0, 120]`
with a provenance tag; when all three probes yield nothing it returns the
fixed default `40.0` tagged `SafeDefault` and emits the warning log
event. -/
theorem probe_chain_in_range_and_safe_default (env : Env) :
    (0 ≤ (get_cpu_temperature_linux env).temp ∧
      (get_cpu_temperature_linux env).temp ≤ 120) ∧
    (get_cpu_temp_from_amd_specific env.amdPaths = none →
      get_cpu_temp_from_sysfs env.hwmonDevs = none →
      get_cpu_temp_from_lm_sensors env.sensorsOut = none →
      (get_cpu_temperature_linux env).temp = 40 ∧
      (get_cpu_temperature_linux env).tag = SourceTag.safeDefault ∧
      (get_cpu_temperature_linux env).warned = true) := by
  cases ha : get_cpu_temp_from_amd_specific env.amdPaths with
  | some t =>
    have hr := amd_range _ t ha
    refine ⟨?_, ?_⟩
    · simpa only [get_cpu_temperature_linux, ha] using round1_range t hr.1 hr.2
    · intro h1 _ _
      exact absurd h1 (by simp)
  | none =>
    cases hb : get_cpu_temp_from_sysfs env.hwmonDevs with
    | some t =>
      have hr := sysfs_range _ t hb
      refine ⟨?_, ?_⟩
      · simpa only [get_cpu_temperature_linux, ha, hb] using round1_range t hr.1 hr.2
      · intro _ h2 _
        exact absurd h2 (by simp)
    | none =>
      cases hc : get_cpu_temp_from_lm_sensors env.sensorsOut with
      | some t =>
        have hr := lm_range _ t hc
        refine ⟨?_, ?_⟩
        · simpa only [get_cpu_temperature_linux, ha, hb, hc] using
            round1_range t hr.1 hr.2
        · intro _ _ h3
          exact absurd h3 (by simp)
      | none =>
        refine ⟨?_, fun _ _ _ => ?_⟩
        · simpa only [get_cpu_temperature_linux, ha, hb, hc] using
            round1_range 40 (by norm_num) (by norm_num)
        · refine ⟨?_, ?_, ?_⟩
          · simp only [get_cpu_temperature_linux, ha, hb, hc]
            norm_num [round1]
          · simp [get_cpu_temperature_linux, ha, hb, hc]
          · simp [get_cpu_temperature_linux, ha, hb, hc]

/-- Witness for C1 at a concrete environment where every probe is
unavailable. -/
theorem probe_chain_in_range_and_safe_default_witness :
    (get_cpu_temperature_linux ⟨[], [], none, some 1, none⟩).temp = 40 ∧
    (get_cpu_temperature_linux ⟨[], [], none, some 1, none⟩).tag =
      SourceTag.safeDefault ∧
    (get_cpu_temperature_linux ⟨[], [], none, some 1, none⟩).warned = true :=
  (probe_chain_in_range_and_safe_default ⟨[], [], none, some 1, none⟩).2
    rfl rfl rfl

/-- Claim C2: with error budget 10, ten consecutive send failures drive the
loop into the terminal stopped state after exactly ten send attempts, no
later event triggers an eleventh attempt, and the `finally` handler leaves
the session not running. -/
theorem ten_failures_stop_loop (more : List TickEvent) :
    (runLoop (loopInit connectedStart) failTen).exited = true ∧
    (runLoop (loopInit connectedStart) failTen).mon.error_count = 10 ∧
    (runLoop (loopInit connectedStart) failTen).sends = 10 ∧
    (stopM (runLoop (loopInit connectedStart) failTen).mon).1.running = false ∧
    (runLoop (runLoop (loopInit connectedStart) failTen) more).sends = 10 := by
  have h10 : runLoop (loopInit connectedStart) failTen =
      ⟨⟨some ⟨true⟩, true, 10, 10, true⟩, 0, 10, true⟩ := by
    simp +decide [runLoop, loopInit, connectedStart, monitorInit, loopStep,
      send_data, failTen, List.replicate]
  rw [h10]
  refine ⟨rfl, rfl, rfl, rfl, ?_⟩
  rw [runLoop_exited more _ rfl]

/-- Claim C7: a successful send resets the consecutive-failure counter to
zero, whatever it was; after one failure followed by one success the
counter is zero. -/
theorem success_resets_error_count (s : LoopState) (t l : ℚ) (w : Bool)
    (hex : s.exited = false) (hrun : s.mon.running = true)
    (hok : (send_data s.mon w (wireData t l)).1 = true) :
    (loopStep s (TickEvent.tick t l w)).mon.error_count = 0 ∧
    (runLoop (loopInit connectedStart)
      [TickEvent.tick 50 10 false, TickEvent.tick 50 10 true]).mon.error_count
      = 0 := by
  constructor
  · simp [loopStep, hex, hrun, hok]
  · simp +decide [runLoop, loopInit, connectedStart, monitorInit, loopStep,
      send_data]

/-- Witness for C7 at the freshly connected loop state. -/
theorem success_resets_error_count_witness :
    (loopInit connectedStart).exited = false ∧
    (loopInit connectedStart).mon.running = true ∧
    (send_data (loopInit connectedStart).mon true (wireData 50 10)).1 = true ∧
    (loopStep (loopInit connectedStart)
      (TickEvent.tick 50 10 true)).mon.error_count = 0 :=
  ⟨rfl, rfl, rfl,
    (success_resets_error_count (loopInit connectedStart) 50 10 true
      rfl rfl rfl).1⟩

/-- Claim C9: `stop` is idempotent: calling it twice from any monitor state
raises nothing (it is total), leaves the session not running with the
connection closed, and the second call does not invoke `close()` again. -/
theorem stop_idempotent (m : Monitor) :
    (stopM (stopM m).1).1.running = false ∧
    connClosed (stopM (stopM m).1).1 = true ∧
    (stopM (stopM m).1).2 = false ∧
    (stopM (stopM m).1).1 = (stopM m).1 := by
  obtain ⟨conn, running, ec, maxe, dm⟩ := m
  cases conn with
  | none => simp [stopM, connClosed]
  | some c =>
    obtain ⟨o⟩ := c
    cases o <;> simp [stopM, connClosed]

/-- Claim C10: `send_data` is total (every exception is caught) and returns
success exactly when a connection object exists, is open, and the write
completes; a failed send is counted by the loop as one more consecutive
error rather than surfaced. -/
theorem send_failure_never_raises_and_is_counted :
    (∀ (m : Monitor) (w : Bool) (s : String),
      ((send_data m w s).1 = true ↔
        ∃ c, m.serial_conn = some c ∧ c.is_open = true ∧ w = true)) ∧
    (∀ (ls : LoopState) (t l : ℚ) (w : Bool),
      ls.exited = false → ls.mon.running = true →
      (send_data ls.mon w (wireData t l)).1 = false →
      (loopStep ls (TickEvent.tick t l w)).mon.error_count =
        ls.mon.error_count + 1) := by
  constructor
  · intro m w s
    cases hc : m.serial_conn with
    | none => simp [send_data, hc]
    | some c =>
      obtain ⟨o⟩ := c
      cases o <;> simp [send_data, hc]
  · intro ls t l w hex hrun hfail
    by_cases hm : ls.mon.max_errors ≤ ls.mon.error_count + 1 <;>
      simp [loopStep, hex, hrun, hfail, hm]

/-- Witness for C10: a monitor that was never connected reports failure,
and the loop adds the failure to the error budget. -/
theorem send_failure_never_raises_and_is_counted_witness :
    ((send_data (monitorInit true) true (wireData 50 10)).1 = true ↔
      ∃ c, (monitorInit true).serial_conn = some c ∧ c.is_open = true ∧
        true = true) ∧
    (loopStep (loopInit (monitorInit true))
      (TickEvent.tick 50 10 true)).mon.error_count =
      (loopInit (monitorInit true)).mon.error_count + 1 :=
  ⟨send_failure_never_raises_and_is_counted.1 (monitorInit true) true
      (wireData 50 10),
    send_failure_never_raises_and_is_counted.2 (loopInit (monitorInit true))
      50 10 true rfl rfl rfl⟩

/-- Claim C5: the load sampler never returns less than the 0.1 floor on any
execution path, and the counter-based fallback at a zero instantaneous
measurement with idle 900 of total 1000 yields 10.0. -/
theorem load_floor_and_proc_fallback :
    (∀ (m : Option ℚ) (st : Option (List ℕ)), 1 / 10 ≤ get_cpu_load m st) ∧
    get_cpu_load (some 0) (some [50, 0, 50, 900, 0, 0, 0, 0, 0, 0]) = 10 := by
  constructor
  · intro m st
    cases m with
    | none =>
      show (1 : ℚ) / 10 ≤ 1
      norm_num
    | some v =>
      simp only [get_cpu_load]
      exact le_max_left _ _
  · simp +decide [get_cpu_load, get_cpu_load_from_proc]
    norm_num

/-- Claim C4 (code bug): a single hwmon device without a `name` file whose
only leaf reads 45600 millidegrees makes the probe return `None` (the
diagnostic print raises `NameError` on the unbound `device_name`), instead
of the maximum 45.6; with a `name` file present the maximum of the
collected readings 12.3, 45.6, 30.0 is returned as specified. -/
theorem sysfs_nameless_device_drops_readings :
    get_cpu_temp_from_sysfs [⟨none, ["45600".data]⟩] = none ∧
    get_cpu_temp_from_sysfs
      [⟨some "k10temp".data, ["12300".data, "45600".data, "30000".data]⟩] =
      some (456 / 10) := by
  constructor
  · simp +decide [get_cpu_temp_from_sysfs, collectDevices, collectLeaves,
      parseTempContent, stripPy, removeDots, isdigitPy, digitsVal,
      pyFloatOfDigitsDots, isPySpace, maxListQ]
    norm_num
  · simp +decide [get_cpu_temp_from_sysfs, collectDevices, collectLeaves,
      parseTempContent, stripPy, removeDots, isdigitPy, digitsVal,
      pyFloatOfDigitsDots, isPySpace, maxListQ]
    norm_num

/-- Claim C6 (code bug): on standard `sensors` output, whose degree marker
is the uppercase `°C`, the line filter `'°c' in line` (written against the
raw line instead of `line_lower`) rejects every line, so the probe returns
`None` instead of the mean 56.0; the mean logic itself is reachable only on
contrived lines containing both `°c` and `°C`. -/
theorem lm_sensors_marker_case_mismatch :
    get_cpu_temp_from_lm_sensors
      (some ("Core 0:        +55.0°C\nCore 1:        +57.0°C").data) = none ∧
    get_cpu_temp_from_lm_sensors
      (some ("cpu °c +55.0 °C\ncpu °c +57.0 °C").data) = some 56 := by
  constructor
  · simp +decide [get_cpu_temp_from_lm_sensors, splitNL, lineTemp,
      containsSub, startsWithL, pyToLower, regexSearchTemp, matchNumAt,
      matchTailDeg, floatOfGroup, digitsVal, isPySpace]
  · simp +decide [get_cpu_temp_from_lm_sensors, splitNL, lineTemp,
      containsSub, startsWithL, pyToLower, regexSearchTemp, matchNumAt,
      matchTailDeg, floatOfGroup, digitsVal, isPySpace]
    norm_num

/-! ## Parsing of pure digit strings (claim C3) -/

theorem space_not_digit (c : Char) (h : isPySpace c = true) :
    c.isDigit = false := by
  simp only [isPySpace, Bool.or_eq_true, decide_eq_true_eq] at h
  rcases h with ((((h | h) | h) | h) | h) | h <;> subst h <;> decide

theorem digit_not_space (c : Char) (h : c.isDigit = true) :
    isPySpace c = false := by
  cases hs : isPySpace c
  · rfl
  · rw [space_not_digit c hs] at h
    exact absurd h (by simp)

theorem digit_ne_dot (c : Char) (h : c.isDigit = true) : (c != '.') = true := by
  by_cases he : c = '.'
  · subst he
    exact absurd h (by decide)
  · simp [he]

theorem dropWhile_eq_self_of (p : Char → Bool) : ∀ (l : List Char),
    (∀ c ∈ l, p c = false) → l.dropWhile p = l := by
  intro l
  induction l with
  | nil => intro _; rfl
  | cons a t ih =>
    intro h
    rw [List.dropWhile_cons, h a (List.mem_cons_self a t)]
    simp

theorem takeWhile_eq_self_of (p : Char → Bool) : ∀ (l : List Char),
    (∀ c ∈ l, p c = true) → l.takeWhile p = l := by
  intro l
  induction l with
  | nil => intro _; rfl
  | cons a t ih =>
    intro h
    rw [List.takeWhile_cons, h a (List.mem_cons_self a t)]
    simp only [if_true]
    rw [ih (fun c hc => h c (List.mem_cons_of_mem a hc))]

theorem dropWhile_eq_nil_of (p : Char → Bool) : ∀ (l : List Char),
    (∀ c ∈ l, p c = true) → l.dropWhile p = [] := by
  intro l
  induction l with
  | nil => intro _; rfl
  | cons a t ih =>
    intro h
    rw [List.dropWhile_cons, h a (List.mem_cons_self a t)]
    simp only [if_true]
    exact ih (fun c hc => h c (List.mem_cons_of_mem a hc))

theorem filter_eq_self_of (p : Char → Bool) : ∀ (l : List Char),
    (∀ c ∈ l, p c = true) → l.filter p = l := by
  intro l
  induction l with
  | nil => intro _; rfl
  | cons a t ih =>
    intro h
    rw [List.filter_cons, h a (List.mem_cons_self a t)]
    simp only [if_true]
    rw [ih (fun c hc => h c (List.mem_cons_of_mem a hc))]

theorem stripPy_digits (s : List Char) (h : ∀ c ∈ s, c.isDigit = true) :
    stripPy s = s := by
  unfold stripPy
  rw [dropWhile_eq_self_of _ s (fun c hc => digit_not_space c (h c hc))]
  rw [dropWhile_eq_self_of _ s.reverse
    (fun c hc => digit_not_space c (h c (List.mem_reverse.mp hc)))]
  exact List.reverse_reverse s

/-- On a nonempty all-digit string the temperature-file parser returns
exactly the integer value scaled by `1/1000`. -/
theorem parseTempContent_digits (s : List Char) (hne : s ≠ [])
    (hdig : ∀ c ∈ s, c.isDigit = true) :
    parseTempContent s = some ((digitsVal s : ℚ) / 1000) := by
  have hstrip := stripPy_digits s hdig
  have hempty : s.isEmpty = false := by
    cases s
    · exact absurd rfl hne
    · rfl
  have hdots : removeDots s = s :=
    filter_eq_self_of _ s (fun c hc => digit_ne_dot c (hdig c hc))
  have hdigall : s.all Char.isDigit = true := List.all_eq_true.mpr hdig
  have hcount : s.count '.' = 0 := by
    rw [List.count_eq_zero]
    intro hm
    exact absurd (hdig '.' hm) (by decide)
  have htake : s.takeWhile (fun c => c != '.') = s :=
    takeWhile_eq_self_of _ s (fun c hc => digit_ne_dot c (hdig c hc))
  have hdrop : s.dropWhile (fun c => c != '.') = [] :=
    dropWhile_eq_nil_of _ s (fun c hc => digit_ne_dot c (hdig c hc))
  simp only [parseTempContent]
  rw [hstrip, hempty]
  simp only [Bool.false_eq_true, if_false]
  rw [hdots]
  simp only [isdigitPy, hempty, hdigall, Bool.not_false, Bool.and_true,
    Bool.not_true, Bool.false_eq_true, if_false]
  unfold pyFloatOfDigitsDots
  rw [hcount]
  simp only [htake, hdrop]
  rw [if_neg (by norm_num)]
  simp [digitsVal]

/-- Claim C3: for a nonempty digit string of value `m`, the parsed
temperature is `m/1000`; the fixed-path probe accepts it exactly when
`m/1000` lies in `[0, 120]`, in which case the chain reports it rounded to
one decimal; empty or non-numeric contents are skipped in favour of the
next candidate path. -/
theorem millidegree_parse_accept_and_skip (s bad : List Char)
    (rest : List (Option (List Char)))
    (hne : s ≠ []) (hdig : ∀ c ∈ s, c.isDigit = true)
    (hbad : stripPy bad = [] ∨ isdigitPy (removeDots (stripPy bad)) = false) :
    parseTempContent s = some ((digitsVal s : ℚ) / 1000) ∧
    (get_cpu_temp_from_amd_specific [some s] =
        some ((digitsVal s : ℚ) / 1000) ↔
      (0 ≤ (digitsVal s : ℚ) / 1000 ∧ (digitsVal s : ℚ) / 1000 ≤ 120)) ∧
    ((digitsVal s : ℚ) / 1000 ≤ 120 →
      (get_cpu_temperature_linux ⟨[some s], [], none, some 1, none⟩).temp =
        round1 ((digitsVal s : ℚ) / 1000)) ∧
    get_cpu_temp_from_amd_specific (some bad :: rest) =
      get_cpu_temp_from_amd_specific rest := by
  have hparse := parseTempContent_digits s hne hdig
  have hnonneg : 0 ≤ (digitsVal s : ℚ) / 1000 := by positivity
  have hbadparse : parseTempContent bad = none := by
    by_cases hemp : (stripPy bad).isEmpty = true
    · simp only [parseTempContent]
      rw [hemp]
      simp
    · have hdg : isdigitPy (removeDots (stripPy bad)) = false := by
        rcases hbad with hb | hb
        · exact absurd (by rw [hb]; rfl) hemp
        · exact hb
      simp only [parseTempContent]
      rw [Bool.not_eq_true] at hemp
      rw [hemp]
      simp only [Bool.false_eq_true, if_false]
      rw [hdg]
      simp
  refine ⟨hparse, ?_, ?_, ?_⟩
  · by_cases hc : 0 ≤ (digitsVal s : ℚ) / 1000 ∧ (digitsVal s : ℚ) / 1000 ≤ 120
    · simp only [get_cpu_temp_from_amd_specific, hparse]
      rw [if_pos hc]
      simp [hc]
    · simp only [get_cpu_temp_from_amd_specific, hparse]
      rw [if_neg hc]
      constructor
      · intro h
        exact absurd h (by simp)
      · intro h
        exact absurd h hc
  · intro hle
    have hprobe : get_cpu_temp_from_amd_specific [some s] =
        some ((digitsVal s : ℚ) / 1000) := by
      simp only [get_cpu_temp_from_amd_specific, hparse]
      rw [if_pos ⟨hnonneg, hle⟩]
    simp only [get_cpu_temperature_linux, hprobe]
  · simp only [get_cpu_temp_from_amd_specific, hbadparse]

/-- Witness for C3 at the digit string 45600 (45.6 degrees Celsius) and the
non-numeric content `abc`. -/
theorem millidegree_parse_accept_and_skip_witness :
    parseTempContent "45600".data =
      some ((digitsVal "45600".data : ℚ) / 1000) ∧
    (get_cpu_temp_from_amd_specific [some "45600".data] =
        some ((digitsVal "45600".data : ℚ) / 1000) ↔
      (0 ≤ (digitsVal "45600".data : ℚ) / 1000 ∧
        (digitsVal "45600".data : ℚ) / 1000 ≤ 120)) ∧
    ((digitsVal "45600".data : ℚ) / 1000 ≤ 120 →
      (get_cpu_temperature_linux
          ⟨[some "45600".data], [], none, some 1, none⟩).temp =
        round1 ((digitsVal "45600".data : ℚ) / 1000)) ∧
    get_cpu_temp_from_amd_specific (some "abc".data :: []) =
      get_cpu_temp_from_amd_specific [] :=
  millidegree_parse_accept_and_skip "45600".data "abc".data []
    (by decide) (by decide) (Or.inr (by decide))

/-! ## Wire-line format (claim C8) -/

theorem toString_mod10_last (n : ℕ) :
    (toString (n % 10)).data ≠ [] ∧
    (toString (n % 10)).data.getLast? ≠ some '\n' := by
  have h10 : n % 10 < 10 := Nat.mod_lt _ (by norm_num)
  generalize hg : n % 10 = r
  rw [hg] at h10
  interval_cases r <;> exact ⟨by decide, by decide⟩

theorem natFmt1_last (n : ℕ) :
    (natFmt1 n).data ≠ [] ∧ (natFmt1 n).data.getLast? ≠ some '\n' := by
  have h := toString_mod10_last n
  unfold natFmt1
  rw [String.data_append]
  constructor
  · intro hc
    exact h.1 (List.append_eq_nil.mp hc).2
  · rw [List.getLast?_append_of_ne_nil _ h.1]
    exact h.2

theorem fmt1_last (q : ℚ) :
    (fmt1 q).data ≠ [] ∧ (fmt1 q).data.getLast? ≠ some '\n' := by
  simp only [fmt1]
  split
  · have h := natFmt1_last (Int.natAbs ⌊10 * q + 1 / 2⌋)
    rw [String.data_append]
    exact ⟨fun hc => h.1 (List.append_eq_nil.mp hc).2,
      by rw [List.getLast?_append_of_ne_nil _ h.1]; exact h.2⟩
  · exact natFmt1_last _

theorem wireData_not_endsNL (t l : ℚ) : endsNL (wireData t l) = false := by
  have h := fmt1_last l
  unfold endsNL wireData
  rw [String.data_append, List.getLast?_append_of_ne_nil _ h.1]
  obtain ⟨c, hc⟩ : ∃ c, (fmt1 l).data.getLast? = some c := by
    cases hlast : (fmt1 l).data.getLast? with
    | none => exact absurd (List.getLast?_eq_none_iff.mp hlast) h.1
    | some c => exact ⟨c, rfl⟩
  rw [hc]
  have hcne : c ≠ '\n' := fun he => h.2 (he ▸ hc)
  simp [hcne]

/-- Claim C8: the line sent downstream is exactly `TEMP:` plus the
temperature to one decimal, `|LOAD:`, the load to one decimal, and a final
newline that `send_data` appends because the formatted line never ends in
one; the 53.2 / 7.5 reading goes out as the exact thirteen-byte line. -/
theorem wire_line_roundtrip (t l : ℚ) (m : Monitor) (c : SerialConn)
    (hm : m.serial_conn = some c) (hopen : c.is_open = true) :
    send_data m true (wireData t l) = (true, some (wireData t l ++ "\n")) ∧
    wireData (532 / 10) (75 / 10) = "TEMP:53.2|LOAD:7.5" ∧
    send_data m true (wireData (532 / 10) (75 / 10)) =
      (true, some "TEMP:53.2|LOAD:7.5\n") := by
  have hsend : ∀ t0 l0 : ℚ, send_data m true (wireData t0 l0) =
      (true, some (wireData t0 l0 ++ "\n")) := by
    intro t0 l0
    simp only [send_data, hm, hopen, if_true, wireData_not_endsNL,
      Bool.false_eq_true, if_false]
  have hfmt : wireData (532 / 10) (75 / 10) = "TEMP:53.2|LOAD:7.5" := by
    norm_num [wireData, fmt1, natFmt1]
    decide
  refine ⟨hsend t l, hfmt, ?_⟩
  rw [hsend (532 / 10) (75 / 10), hfmt]
  rfl

/-- Witness for C8 at the connected monitor. -/
theorem wire_line_roundtrip_witness :
    send_data connectedStart true (wireData (532 / 10) (75 / 10)) =
      (true, some (wireData (532 / 10) (75 / 10) ++ "\n")) ∧
    wireData (532 / 10) (75 / 10) = "TEMP:53.2|LOAD:7.5" ∧
    send_data connectedStart true (wireData (532 / 10) (75 / 10)) =
      (true, some "TEMP:53.2|LOAD:7.5\n") :=
  wire_line_roundtrip (532 / 10) (75 / 10) connectedStart ⟨true⟩ rfl rfl

end PcTempMonitor
